import Mathlib

/-!
# Verification of the Dexie-based RxStorage instance

Shallow embedding of `RxStorageInstanceDexie` (bulk write engine, remote
revision application, change feed) and proofs of the specification claims.

The storage substrate (Dexie tables), the revision codec from `util.ts`
and the helpers from `dexie-helper.ts` are not part of the given source
tree; they are modelled from the specification where needed, as marked.
Wall-clock time (`now()`) and the random bulk id are supplied by the
caller as explicit parameters.
-/

set_option autoImplicit false

namespace RxDexie

/-! ## Decimal rendering and parsing of revision heights

Modelled from the spec: revisions are strings `"<height>-<hash>"` where the
height is a decimal integer (JavaScript number-to-string coercion). -/

/-- The decimal digit character for `d % 10`. -/
def natDigitChar (d : Nat) : Char :=
  match d with
  | 0 => '0' | 1 => '1' | 2 => '2' | 3 => '3' | 4 => '4'
  | 5 => '5' | 6 => '6' | 7 => '7' | 8 => '8' | _ => '9'

/-- Decimal digits of a natural number, most significant first. -/
def natToDigits (n : Nat) : List Char :=
  if _h : n < 10 then [natDigitChar n]
  else natToDigits (n / 10) ++ [natDigitChar (n % 10)]
  decreasing_by
    exact Nat.div_lt_self (by omega) (by omega)

/-- Decimal rendering of a natural number (JS `String(n)`). -/
def natToString (n : Nat) : String :=
  String.mk (natToDigits n)

/-- Numeric value of a digit character. -/
def digitVal (c : Char) : Nat := c.toNat - 48

/-- Parse a digit list back to a natural number. -/
def natFromDigits (cs : List Char) : Nat :=
  cs.foldl (fun acc c => acc * 10 + digitVal c) 0

/-- Parsed form of a revision string. -/
structure RevParsed where
  height : Nat
  hash : String
  deriving DecidableEq, Repr

/-- Modelled from the spec: `parseRevision("H-Hash") → {height, hash}`
(from `util.ts`, not under `src/`). Splits at the first dash. -/
def parseRevision (rev : String) : RevParsed :=
  { height := natFromDigits (rev.data.takeWhile (fun c => c ≠ '-'))
    hash := String.mk ((rev.data.dropWhile (fun c => c ≠ '-')).drop 1) }

/-- Modelled from the spec: `getHeightOfRevision("H-Hash") → H`
(from `util.ts`, not under `src/`). -/
def getHeightOfRevision (rev : String) : Nat :=
  (parseRevision rev).height

/-- Modelled from the spec: `lastOfArray` (from `util.ts`, not under
`src/`); returns the last element when the list is non-empty. -/
def lastOfArray {α : Type} (l : List α) : Option α :=
  l.getLast?

/-! ## Document data model -/

/-- A document record: the schema primary key resolves to `id`; `value`
stands for the application-defined body. `_attachments` is always the
empty map in this storage and is omitted. -/
structure DocData where
  id : String
  value : Nat
  _rev : String
  _deleted : Bool
  deriving DecidableEq, Repr

/-- A record as persisted in a Dexie table: the document payload plus the
engine-private `$lastWriteAt` key (absent when a write path stores the raw
payload without stamping it). -/
structure StoredDoc where
  doc : DocData
  lastWriteAt : Option Nat
  deriving DecidableEq, Repr

/-- Modelled from the spec: `stripDexieKey` (from `dexie-helper.ts`, not
under `src/`) removes the engine-private `$lastWriteAt` field. -/
def stripDexieKey (d : StoredDoc) : DocData := d.doc

/-- Modelled from the spec: `createRevision(doc)` (from `util.ts`, not
under `src/`): a deterministic content hash of the document body
excluding `_rev`; rendered with decimal digits only (dash-free). -/
def createRevision (doc : DocData) : String :=
  natToString
    (doc.id.data.foldl (fun acc c => acc * 31 + c.toNat) 7
      + doc.value * 13
      + (if doc._deleted then 1 else 0))

/-- A row in the `changes-meta` table. -/
structure ChangesRow where
  sequence : Nat
  id : String
  deriving DecidableEq, Repr

/-- The three per-collection tables. -/
structure StorageState where
  dexieTable : List StoredDoc
  dexieDeletedTable : List StoredDoc
  dexieChangesTable : List ChangesRow
  deriving DecidableEq, Repr

/-! ## Substrate table primitives (modelled from the spec, §6) -/

/-- Modelled from the spec: primary-key lookup in a table. -/
def tableGet (t : List StoredDoc) (id : String) : Option StoredDoc :=
  t.find? (fun d => d.doc.id = id)

/-- Modelled from the spec: `bulkPut` upserts by primary key. -/
def tablePut (t : List StoredDoc) (d : StoredDoc) : List StoredDoc :=
  d :: t.filter (fun x => x.doc.id ≠ d.doc.id)

/-- Modelled from the spec: `bulkDelete` removes by primary key. -/
def tableDelete (t : List StoredDoc) (id : String) : List StoredDoc :=
  t.filter (fun x => x.doc.id ≠ id)

def tableBulkPut (t : List StoredDoc) (ds : List StoredDoc) : List StoredDoc :=
  ds.foldl tablePut t

def tableBulkDelete (t : List StoredDoc) (ids : List String) : List StoredDoc :=
  ids.foldl tableDelete t

/-- Modelled from the spec: the auto-assigned sequence for the next
`changes-meta` row (monotonic auto-increment). -/
def nextSequence (t : List ChangesRow) : Nat :=
  t.foldl (fun m r => max m r.sequence) 0 + 1

/-- Modelled from the spec: appending `{id}` rows to `changes-meta`, each
receiving the next auto-assigned sequence (`addChangeDocumentsMeta`). -/
def addChangesRows (t : List ChangesRow) (ids : List String) : List ChangesRow :=
  match ids with
  | [] => t
  | id :: rest => addChangesRows (t ++ [⟨nextSequence t, id⟩]) rest

/-- Modelled from the spec: `getDocsInDb` (from `dexie-helper.ts`, not
under `src/`): per id, look up in the live table, then in the deleted
table; input order is preserved. -/
def getDocsInDb (s : StorageState) (ids : List String) : List (Option StoredDoc) :=
  ids.map (fun id =>
    match tableGet s.dexieTable id with
    | some d => some d
    | none => tableGet s.dexieDeletedTable id)

/-! ## Change events and event bulks -/

inductive ChangeOp where
  | INSERT
  | UPDATE
  | DELETE
  deriving DecidableEq, Repr

/-- The `ChangeEvent` payload `{id, operation, previous, doc}`. -/
structure ChangeEvent where
  id : String
  operation : ChangeOp
  previous : Option DocData
  doc : Option DocData
  deriving DecidableEq, Repr

/-- Modelled from the spec: `getDexieEventKey` (from `dexie-helper.ts`,
not under `src/`): a key built from locality, document id and revision. -/
def getDexieEventKey (isLocal : Bool) (id rev : String) : String :=
  (if isLocal then "local" else "non-local") ++ "|" ++ id ++ "|" ++ rev

/-- An `RxStorageChangeEvent` with its timing fields. -/
structure RxStorageChangeEvent where
  eventId : String
  documentId : String
  change : ChangeEvent
  startTime : Nat
  endTime : Nat
  deriving DecidableEq, Repr

structure EventBulk where
  id : String
  events : List RxStorageChangeEvent
  deriving DecidableEq, Repr

/-! ## bulkWrite (`src/unnamed/part_000`, lines 80-271) -/

structure BulkWriteRow where
  document : DocData
  previous : Option DocData
  deriving DecidableEq, Repr

structure RxStorageBulkWriteError where
  status : Nat
  documentId : String
  writeRow : BulkWriteRow
  deriving DecidableEq, Repr

/-- JS-object-style map update: later assignments overwrite earlier ones
under the same key. -/
def mapPut {α : Type} (m : List (String × α)) (k : String) (v : α) : List (String × α) :=
  (m.filter (fun p => p.1 ≠ k)) ++ [(k, v)]

def mapGet {α : Type} (m : List (String × α)) (k : String) : Option α :=
  (m.find? (fun p => p.1 = k)).map (fun p => p.2)

structure RxStorageBulkWriteResponse where
  success : List (String × DocData)
  error : List (String × RxStorageBulkWriteError)
  deriving DecidableEq, Repr

/-- An engine error that aborts an operation. -/
inductive RxErr where
  /-- `newRxError('SNH')`: the categorizer fell through. -/
  | SNH
  /-- An operation hit a closed substrate handle. -/
  | closed
  deriving DecidableEq, Repr

/-- Accumulator of the batched-up database operations inside the
`bulkWrite` transaction (lines 103-107 plus the response and events). -/
structure WriteAcc where
  bulkPutDocs : List StoredDoc
  bulkRemoveDocs : List String
  bulkPutDeletedDocs : List StoredDoc
  bulkRemoveDeletedDocs : List String
  changesIds : List String
  events : List RxStorageChangeEvent
  success : List (String × DocData)
  error : List (String × RxStorageBulkWriteError)
  deriving DecidableEq, Repr

def emptyWriteAcc : WriteAcc :=
  ⟨[], [], [], [], [], [], [], []⟩

/-- Lines 159-161: inserting a deleted document is possible without
sending the previous data, so the stored tombstone is substituted. -/
def substPrevious (writeRow : BulkWriteRow) (documentInDb : StoredDoc) : Option DocData :=
  match writeRow.previous with
  | none =>
    if documentInDb.doc._deleted then some (stripDexieKey documentInDb) else none
  | some p => some p

/-- The conflict test of lines 163-172, evaluated after the tombstone
substitution. -/
def conflictCond (writeRow : BulkWriteRow) (documentInDb : StoredDoc) : Bool :=
  ((substPrevious writeRow documentInDb).isNone && !documentInDb.doc._deleted)
    || ((substPrevious writeRow documentInDb).any
        (fun p => documentInDb.doc._rev ≠ p._rev))

/-- The body of the `documentWrites.forEach` loop (lines 109-255):
categorizes one write row against the snapshot entry `documentInDb`
that was read at the start of the transaction. `startTime` is the
`now()` captured for this row. -/
def processWriteRow (startTime : Nat) (writeRow : BulkWriteRow)
    (documentInDb : Option StoredDoc) (acc : WriteAcc) : Except RxErr WriteAcc :=
  let id := writeRow.document.id
  match documentInDb with
  | none =>
    -- insert new document (lines 113-152)
    let newRevision := "1-" ++ createRevision writeRow.document
    let insertedIsDeleted := writeRow.document._deleted
    let writeDoc : DocData :=
      { writeRow.document with _rev := newRevision, _deleted := insertedIsDeleted }
    let insertData : StoredDoc := ⟨writeDoc, some startTime⟩
    let acc := { acc with changesIds := acc.changesIds ++ [id] }
    let acc :=
      if insertedIsDeleted then
        { acc with bulkPutDeletedDocs := acc.bulkPutDeletedDocs ++ [insertData] }
      else
        { acc with
            bulkPutDocs := acc.bulkPutDocs ++ [insertData]
            events := acc.events ++ [{
              eventId := getDexieEventKey false id newRevision
              documentId := id
              change := ⟨id, ChangeOp.INSERT, none, some writeDoc⟩
              startTime := startTime
              endTime := startTime }] }
    Except.ok { acc with success := mapPut acc.success id writeDoc }
  | some documentInDb =>
    -- update existing document (lines 153-254)
    let revInDb := documentInDb.doc._rev
    let previous : Option DocData := substPrevious writeRow documentInDb
    if conflictCond writeRow documentInDb then
      -- conflict error (lines 173-180)
      let err : RxStorageBulkWriteError := ⟨409, id, writeRow⟩
      Except.ok { acc with error := mapPut acc.error id err }
    else
      let newRevHeight := getHeightOfRevision revInDb + 1
      let newRevision := natToString newRevHeight ++ "-" ++ createRevision writeRow.document
      let isDeleted := writeRow.document._deleted
      let writeDoc : StoredDoc :=
        ⟨{ writeRow.document with _rev := newRevision, _deleted := isDeleted },
          some startTime⟩
      let acc := { acc with changesIds := acc.changesIds ++ [id] }
      let change? : Option (ChangeEvent × WriteAcc) :=
        match previous with
        | some prev =>
          if prev._deleted && !writeDoc.doc._deleted then
            -- insert document that was deleted before (198-209)
            some (⟨id, ChangeOp.INSERT, none, some (stripDexieKey writeDoc)⟩,
              { acc with
                  bulkPutDocs := acc.bulkPutDocs ++ [writeDoc]
                  bulkRemoveDeletedDocs := acc.bulkRemoveDeletedDocs ++ [id] })
          else if !prev._deleted && !writeDoc.doc._deleted then
            -- update existing non-deleted document (210-220)
            some (⟨id, ChangeOp.UPDATE, some prev, some (stripDexieKey writeDoc)⟩,
              { acc with bulkPutDocs := acc.bulkPutDocs ++ [writeDoc] })
          else if !prev._deleted && writeDoc.doc._deleted then
            -- set non-deleted document to deleted (221-239); the event's
            -- previous carries the new revision
            some (⟨id, ChangeOp.DELETE, some { prev with _rev := newRevision }, none⟩,
              { acc with
                  bulkPutDeletedDocs := acc.bulkPutDeletedDocs ++ [writeDoc]
                  bulkRemoveDocs := acc.bulkRemoveDocs ++ [id] })
          else none
        | none => none
      match change? with
      | none => Except.error RxErr.SNH
      | some (change, acc) =>
        Except.ok { acc with
          events := acc.events ++ [{
            eventId := getDexieEventKey false id newRevision
            documentId := id
            change := change
            startTime := startTime
            endTime := startTime }]
          success := mapPut acc.success id (stripDexieKey writeDoc) }

/-- The fold of `processWriteRow` over all rows paired with the snapshot. -/
def bulkWriteLoop (startTime : Nat) :
    List (BulkWriteRow × Option StoredDoc) → WriteAcc → Except RxErr WriteAcc
  | [], acc => Except.ok acc
  | (row, inDb) :: rest, acc =>
    match processWriteRow startTime row inDb acc with
    | Except.ok acc' => bulkWriteLoop startTime rest acc'
    | Except.error e => Except.error e

/-- Applying the batched substrate mutations (lines 257-263). -/
def applyWriteAcc (s : StorageState) (acc : WriteAcc) : StorageState :=
  { dexieTable :=
      tableBulkDelete (tableBulkPut s.dexieTable acc.bulkPutDocs) acc.bulkRemoveDocs
    dexieDeletedTable :=
      tableBulkDelete (tableBulkPut s.dexieDeletedTable acc.bulkPutDeletedDocs)
        acc.bulkRemoveDeletedDocs
    dexieChangesTable := addChangesRows s.dexieChangesTable acc.changesIds }

/-- `bulkWrite` (lines 80-271). The caller supplies the clock value
`startTime` and the random bulk id. Returns the mutated state, the
response and the event bulk that is pushed on the change stream. -/
def bulkWrite (s : StorageState) (documentWrites : List BulkWriteRow)
    (startTime : Nat) (bulkId : String) :
    Except RxErr (StorageState × RxStorageBulkWriteResponse × EventBulk) :=
  let documentKeys := documentWrites.map (fun w => w.document.id)
  let docsInDb := getDocsInDb s documentKeys
  match bulkWriteLoop startTime (documentWrites.zip docsInDb) emptyWriteAcc with
  | Except.error e => Except.error e
  | Except.ok acc =>
    Except.ok (applyWriteAcc s acc, ⟨acc.success, acc.error⟩, ⟨bulkId, acc.events⟩)

/-! ## bulkAddRevisions (`src/unnamed/part_000`, lines 273-400) -/

/-- Modelled from the spec: JavaScript string comparison (`a > b` on
strings) compares code units lexicographically; a strict prefix is
smaller. -/
def charListLt : List Char → List Char → Bool
  | [], [] => false
  | [], _ :: _ => true
  | _ :: _, [] => false
  | a :: as, b :: bs =>
    if a.toNat < b.toNat then true
    else if b.toNat < a.toNat then false
    else charListLt as bs

/-- JS `a < b` on strings. -/
def stringLt (a b : String) : Bool := charListLt a.data b.data

/-- The `mustUpdate` computation (lines 331-340): compare by height; on
equal heights the incoming write wins when its hash is lexicographically
greater (JS `>` on the hash strings). -/
def mustUpdateFn (newWriteRevision oldRevision : RevParsed) : Bool :=
  if newWriteRevision.height ≠ oldRevision.height then
    -- height not equal, compare based on height
    decide (newWriteRevision.height > oldRevision.height)
  else
    -- equal height but new write may have the winning hash
    stringLt oldRevision.hash newWriteRevision.hash

/-- Accumulator of the batched operations inside `bulkAddRevisions`. -/
structure RevAcc where
  bulkPutDocs : List StoredDoc
  bulkRemoveDocs : List String
  bulkPutDeletedDocs : List StoredDoc
  bulkRemoveDeletedDocs : List String
  changesIds : List String
  events : List RxStorageChangeEvent
  deriving DecidableEq, Repr

def emptyRevAcc : RevAcc := ⟨[], [], [], [], [], []⟩

/-- The body of the `documents.forEach` loop of `bulkAddRevisions`
(lines 297-387). Note that in the source the non-insert branches push
the raw `docData` (without `$lastWriteAt`); the stamped clone
`storeAtDb` is computed but never written. -/
def processAddRevision (startTime : Nat) (docData : DocData)
    (documentInDb : Option StoredDoc) (acc : RevAcc) : RevAcc :=
  let id := docData.id
  match documentInDb with
  | none =>
    -- document not here, so we can directly insert (302-326)
    let insertData : StoredDoc := ⟨docData, some startTime⟩
    let acc :=
      if insertData.doc._deleted then
        { acc with bulkPutDeletedDocs := acc.bulkPutDeletedDocs ++ [insertData] }
      else
        { acc with bulkPutDocs := acc.bulkPutDocs ++ [insertData] }
    { acc with
        events := acc.events ++ [{
          eventId := getDexieEventKey false id docData._rev
          documentId := id
          change := ⟨id, ChangeOp.INSERT, none, some docData⟩
          startTime := startTime
          endTime := startTime }]
        changesIds := acc.changesIds ++ [id] }
  | some documentInDb =>
    let newWriteRevision := parseRevision docData._rev
    let oldRevision := parseRevision documentInDb.doc._rev
    if mustUpdateFn newWriteRevision oldRevision then
      -- the stamped clone storeAtDb of the source (342-343) is dead code:
      -- every branch below stores the raw docData or nothing
      let change? : Option (ChangeEvent × RevAcc) :=
        if documentInDb.doc._deleted && !docData._deleted then
          some (⟨id, ChangeOp.INSERT, none, some docData⟩,
            { acc with
                bulkRemoveDeletedDocs := acc.bulkRemoveDeletedDocs ++ [id]
                bulkPutDocs := acc.bulkPutDocs ++ [⟨docData, none⟩] })
        else if !documentInDb.doc._deleted && !docData._deleted then
          some (⟨id, ChangeOp.UPDATE, some (stripDexieKey documentInDb), some docData⟩,
            { acc with bulkPutDocs := acc.bulkPutDocs ++ [⟨docData, none⟩] })
        else if !documentInDb.doc._deleted && docData._deleted then
          some (⟨id, ChangeOp.DELETE, some (stripDexieKey documentInDb), none⟩,
            { acc with
                bulkPutDeletedDocs := acc.bulkPutDeletedDocs ++ [⟨docData, none⟩]
                bulkRemoveDocs := acc.bulkRemoveDocs ++ [id] })
        else
          -- documentInDb._deleted && docData._deleted: change stays null
          none
      match change? with
      | some (change, acc) =>
        { acc with
            events := acc.events ++ [{
              eventId := getDexieEventKey false id docData._rev
              documentId := id
              change := change
              startTime := startTime
              endTime := startTime }]
            changesIds := acc.changesIds ++ [id] }
      | none => acc
    else
      acc

def addRevisionsLoop (startTime : Nat) :
    List (DocData × Option StoredDoc) → RevAcc → RevAcc
  | [], acc => acc
  | (docData, inDb) :: rest, acc =>
    addRevisionsLoop startTime rest (processAddRevision startTime docData inDb acc)

def applyRevAcc (s : StorageState) (acc : RevAcc) : StorageState :=
  { dexieTable :=
      tableBulkDelete (tableBulkPut s.dexieTable acc.bulkPutDocs) acc.bulkRemoveDocs
    dexieDeletedTable :=
      tableBulkDelete (tableBulkPut s.dexieDeletedTable acc.bulkPutDeletedDocs)
        acc.bulkRemoveDeletedDocs
    dexieChangesTable := addChangesRows s.dexieChangesTable acc.changesIds }

/-- `bulkAddRevisions` (lines 273-400): never produces errors; the event
bulk is pushed on the change stream unconditionally. -/
def bulkAddRevisions (s : StorageState) (documents : List DocData)
    (startTime : Nat) (bulkId : String) : StorageState × EventBulk :=
  let documentKeys := documents.map (fun d => d.id)
  let docsInDb := getDocsInDb s documentKeys
  let acc := addRevisionsLoop startTime (documents.zip docsInDb) emptyRevAcc
  (applyRevAcc s acc, ⟨bulkId, acc.events⟩)

/-! ## Read paths (lines 402-497) -/

/-- `findDocumentsById` (lines 402-430). -/
def findDocumentsById (s : StorageState) (ids : List String) (deleted : Bool) :
    List (String × DocData) :=
  let docsInDb : List (Option StoredDoc) :=
    if deleted then getDocsInDb s ids
    else ids.map (fun id => tableGet s.dexieTable id)
  ((ids.zip docsInDb).foldl (fun ret p =>
    match p.2 with
    | some documentInDb =>
      if !documentInDb.doc._deleted || deleted then
        mapPut ret p.1 (stripDexieKey documentInDb)
      else ret
    | none => ret) [])

structure PreparedQuery where
  skip : Option Nat
  limit : Option Nat
  deriving DecidableEq, Repr

/-- `query` (lines 437-458): full scan with an opaque matcher, sort with
an opaque comparator, then skip and limit (JS-truthy checks). -/
def query (s : StorageState) (queryMatcher : StoredDoc → Bool)
    (sortLe : DocData → DocData → Bool) (preparedQuery : PreparedQuery) :
    List DocData :=
  let docsInDb := s.dexieTable.filter queryMatcher
  let documents := (docsInDb.map stripDexieKey).mergeSort sortLe
  let documents :=
    match preparedQuery.skip with
    | some k => if k ≠ 0 then documents.drop k else documents
    | none => documents
  match preparedQuery.limit with
  | some l => if l ≠ 0 && documents.length > l then documents.take l else documents
  | none => documents

inductive ChangeDirection where
  | before
  | after
  deriving DecidableEq, Repr

structure ChangeStreamOnceOptions where
  sinceSequence : Nat
  direction : ChangeDirection
  limit : Option Nat
  deriving DecidableEq, Repr

/-- `getChangedDocuments` (lines 460-497). The range query over the
`sequence` index is modelled from the spec: `above` keeps entries with a
strictly greater sequence in index (stored) order, `below` keeps strictly
smaller ones, `reverse` flips the order; `limit` truncates, and the JS
`if (options.limit)` skips a zero limit. -/
def getChangedDocuments (s : StorageState) (options : ChangeStreamOnceOptions) :
    List ChangesRow × Nat :=
  let base :=
    match options.direction with
    | ChangeDirection.before =>
      (s.dexieChangesTable.filter (fun c => c.sequence < options.sinceSequence)).reverse
    | ChangeDirection.after =>
      s.dexieChangesTable.filter (fun c => options.sinceSequence < c.sequence)
  let changedDocuments :=
    match options.limit with
    | some l => if l ≠ 0 then base.take l else base
    | none => base
  let lastSequence :=
    if changedDocuments.isEmpty then options.sinceSequence
    else
      let useForLastSequence :=
        match options.direction with
        | ChangeDirection.after => lastOfArray changedDocuments
        | ChangeDirection.before => changedDocuments.head?
      (useForLastSequence.map (fun r => r.sequence)).getD 0
  (changedDocuments, lastSequence)

/-! ## Instance lifecycle and the change stream (lines 48-68, 499-519)

The published `EventBulk` list models the `changes$` subject; the
substrate's behaviour on a closed handle (`closeDexieDb` lives in
`dexie-helper.ts`, not under `src/`) is modelled from the spec: after
`close()` releases the handles, no further operation succeeds. -/

structure InstanceState where
  storage : StorageState
  closed : Bool
  dbOpen : Bool
  published : List EventBulk
  deriving DecidableEq, Repr

def initialInstance : InstanceState :=
  ⟨⟨[], [], []⟩, false, true, []⟩

/-- `close()` (lines 515-519): set the closed flag, complete the stream,
release the substrate handle. -/
def closeInstance (inst : InstanceState) : InstanceState :=
  { inst with closed := true, dbOpen := false }

def bulkWriteInstance (inst : InstanceState) (rows : List BulkWriteRow)
    (startTime : Nat) (bulkId : String) :
    Except RxErr (InstanceState × RxStorageBulkWriteResponse) :=
  if inst.dbOpen then
    match bulkWrite inst.storage rows startTime bulkId with
    | Except.error e => Except.error e
    | Except.ok (s', ret, eventBulk) =>
      Except.ok ({ inst with storage := s', published := inst.published ++ [eventBulk] }, ret)
  else Except.error RxErr.closed

def bulkAddRevisionsInstance (inst : InstanceState) (documents : List DocData)
    (startTime : Nat) (bulkId : String) : Except RxErr InstanceState :=
  if inst.dbOpen then
    let (s', eventBulk) := bulkAddRevisions inst.storage documents startTime bulkId
    Except.ok { inst with storage := s', published := inst.published ++ [eventBulk] }
  else Except.error RxErr.closed

def findDocumentsByIdInstance (inst : InstanceState) (ids : List String)
    (deleted : Bool) : Except RxErr (List (String × DocData)) :=
  if inst.dbOpen then Except.ok (findDocumentsById inst.storage ids deleted)
  else Except.error RxErr.closed

def queryInstance (inst : InstanceState) (queryMatcher : StoredDoc → Bool)
    (sortLe : DocData → DocData → Bool) (preparedQuery : PreparedQuery) :
    Except RxErr (List DocData) :=
  if inst.dbOpen then Except.ok (query inst.storage queryMatcher sortLe preparedQuery)
  else Except.error RxErr.closed

def getChangedDocumentsInstance (inst : InstanceState)
    (options : ChangeStreamOnceOptions) : Except RxErr (List ChangesRow × Nat) :=
  if inst.dbOpen then Except.ok (getChangedDocuments inst.storage options)
  else Except.error RxErr.closed

/-! ## Spec-side descriptions of the change-feed query (§4.4)

These three definitions follow the specification's words, to be compared
with `getChangedDocuments` as translated from the source. -/

/-- Spec §4.4: entries with `sequence > sinceSequence`, ascending. -/
def specChangedAfter (s : StorageState) (since : Nat) : List ChangesRow :=
  s.dexieChangesTable.filter (fun c => since < c.sequence)

/-- Spec §4.4: entries with `sequence < sinceSequence`, descending. -/
def specChangedBefore (s : StorageState) (since : Nat) : List ChangesRow :=
  (s.dexieChangesTable.filter (fun c => c.sequence < since)).reverse

/-- Truncation to the limit as the source applies it: a given limit of
zero is skipped by the JS truthiness test `if (options.limit)`. -/
def specTruncate (limit : Option Nat) (l : List ChangesRow) : List ChangesRow :=
  match limit with
  | some k => if k ≠ 0 then l.take k else l
  | none => l

/-! ## Concrete fixtures used by witnesses and counterexamples -/

def exTombstone : DocData := ⟨"a", 0, "1-5", true⟩

def exTombstoneStored : StoredDoc := ⟨exTombstone, some 100⟩

def exLiveDoc : DocData := ⟨"a", 1, "1-8", false⟩

def exLiveStored : StoredDoc := ⟨exLiveDoc, some 1⟩

/-- A client delete of `exLiveDoc` with matching previous. -/
def exDeleteRow : BulkWriteRow := ⟨⟨"a", 1, "1-8", true⟩, some exLiveDoc⟩

/-- An update of `exLiveDoc` with matching previous. -/
def exUpdRow : BulkWriteRow := ⟨⟨"a", 2, "", false⟩, some exLiveDoc⟩

/-- A conflicting update: previous revision does not match `"1-8"`. -/
def exConfRow : BulkWriteRow := ⟨⟨"a", 9, "", false⟩, some ⟨"a", 9, "7-9", false⟩⟩

/-- A previous-less insert over an existing tombstone (resurrect). -/
def exResRow : BulkWriteRow := ⟨⟨"a", 5, "", false⟩, none⟩

/-- Storage holding only the tombstone for `"a"`. -/
def exS0 : StorageState := ⟨[], [exTombstoneStored], []⟩

/-- Beats `exTombstone` (height 2 over 1) and is itself deleted. -/
def exWin : DocData := ⟨"a", 1, "2-7", true⟩

/-- Loses against `exTombstone` (same height, hash "1" below "5"). -/
def exLose : DocData := ⟨"a", 1, "1-1", true⟩

/-- A fresh document, absent from `exS0`. -/
def exFresh : DocData := ⟨"z", 3, "3-44", false⟩

/-! ## Lemmas about the revision codec -/

theorem natDigitChar_ne_dash (d : Nat) : natDigitChar d ≠ '-' := by
  unfold natDigitChar
  split <;> decide

theorem digitVal_natDigitChar (d : Nat) (h : d < 10) :
    digitVal (natDigitChar d) = d := by
  interval_cases d <;> rfl

theorem mem_natToDigits_ne_dash (n : Nat) : ∀ c ∈ natToDigits n, c ≠ '-' := by
  induction n using Nat.strong_induction_on with
  | _ n ih =>
    rw [natToDigits]
    split
    · intro c hc
      rw [List.mem_singleton] at hc
      subst hc
      exact natDigitChar_ne_dash _
    · intro c hc
      rw [List.mem_append] at hc
      rcases hc with h1 | h2
      · exact ih (n / 10) (Nat.div_lt_self (by omega) (by omega)) c h1
      · rw [List.mem_singleton] at h2
        subst h2
        exact natDigitChar_ne_dash _

theorem natFromDigits_natToDigits (n : Nat) :
    natFromDigits (natToDigits n) = n := by
  induction n using Nat.strong_induction_on with
  | _ n ih =>
    rw [natToDigits]
    split
    · next h =>
      simp only [natFromDigits, List.foldl_cons, List.foldl_nil, Nat.zero_mul,
        Nat.zero_add]
      exact digitVal_natDigitChar n h
    · next h =>
      unfold natFromDigits
      rw [List.foldl_append]
      have hrec := ih (n / 10) (Nat.div_lt_self (by omega) (by omega))
      unfold natFromDigits at hrec
      rw [hrec, List.foldl_cons, List.foldl_nil,
        digitVal_natDigitChar (n % 10) (Nat.mod_lt _ (by omega))]
      omega

theorem takeWhile_append_of_all {α : Type} (p : α → Bool) (l₁ l₂ : List α)
    (h : ∀ c ∈ l₁, p c = true) :
    (l₁ ++ l₂).takeWhile p = l₁ ++ l₂.takeWhile p := by
  induction l₁ with
  | nil => simp
  | cons a l ih =>
    rw [List.cons_append, List.takeWhile_cons, h a (List.mem_cons_self a l),
      ih (fun c hc => h c (List.mem_cons_of_mem a hc))]
    simp

theorem dropWhile_append_of_all {α : Type} (p : α → Bool) (l₁ l₂ : List α)
    (h : ∀ c ∈ l₁, p c = true) :
    (l₁ ++ l₂).dropWhile p = l₂.dropWhile p := by
  induction l₁ with
  | nil => simp
  | cons a l ih =>
    rw [List.cons_append, List.dropWhile_cons, h a (List.mem_cons_self a l)]
    simp only [if_true]
    exact ih (fun c hc => h c (List.mem_cons_of_mem a hc))

theorem data_append (a b : String) : (a ++ b).data = a.data ++ b.data := rfl

theorem string_mk_data (s : String) : String.mk s.data = s := rfl

/-- Round trip: a revision string built from a height and a hash parses
back to that height and hash (the first dash is the one the engine
inserted, since decimal digits contain no dash). -/
theorem parseRevision_build (h : Nat) (s : String) :
    parseRevision (natToString h ++ "-" ++ s) = ⟨h, s⟩ := by
  have hdata : (natToString h ++ "-" ++ s).data = natToDigits h ++ '-' :: s.data := by
    rw [data_append, data_append]
    simp [natToString]
  have hall : ∀ c ∈ natToDigits h, (fun c => decide (c ≠ '-')) c = true := by
    intro c hc
    simp [mem_natToDigits_ne_dash h c hc]
  unfold parseRevision
  rw [hdata, takeWhile_append_of_all _ _ _ hall, dropWhile_append_of_all _ _ _ hall]
  simp [List.takeWhile_cons, List.dropWhile_cons, natFromDigits_natToDigits,
    string_mk_data]

theorem getHeightOfRevision_build (h : Nat) (s : String) :
    getHeightOfRevision (natToString h ++ "-" ++ s) = h := by
  rw [getHeightOfRevision, parseRevision_build]

theorem charListLt_self (l : List Char) : charListLt l l = false := by
  induction l with
  | nil => rfl
  | cons a as ih => simp [charListLt, ih]

/-- The JS comparison agrees with the mathematical lexicographic strict
order on the code-unit sequences. -/
theorem charListLt_iff_lex : ∀ as bs : List Char,
    charListLt as bs = true ↔
      List.Lex (fun c d : Char => c.toNat < d.toNat) as bs := by
  intro as
  induction as with
  | nil =>
    intro bs
    cases bs with
    | nil =>
      constructor
      · intro h
        simp [charListLt] at h
      · intro h
        cases h
    | cons b bs =>
      simp only [charListLt]
      exact ⟨fun _ => List.Lex.nil, fun _ => trivial⟩
  | cons a as ih =>
    intro bs
    cases bs with
    | nil =>
      constructor
      · intro h
        simp [charListLt] at h
      · intro h
        cases h
    | cons b bs =>
      by_cases h1 : a.toNat < b.toNat
      · simp only [charListLt, h1, if_true, ite_true]
        exact ⟨fun _ => List.Lex.rel h1, fun _ => trivial⟩
      · by_cases h2 : b.toNat < a.toNat
        · simp only [charListLt, h1, h2, if_true, if_false, ite_true, ite_false]
          constructor
          · intro h
            exact absurd h (by simp)
          · intro h
            cases h with
            | cons h' => omega
            | rel hr => exact absurd hr h1
        · have hab : a = b := by
            have hn : a.toNat = b.toNat := by omega
            exact Char.eq_of_val_eq (UInt32.ext hn)
          subst hab
          simp only [charListLt, h1, h2, ite_false, if_false]
          constructor
          · intro h
            exact List.Lex.cons ((ih bs).mp h)
          · intro h
            cases h with
            | cons h' => exact (ih bs).mpr h'
            | rel hr => omega

/-- The incoming revision of a document never beats itself. -/
theorem mustUpdateFn_self (r : RevParsed) : mustUpdateFn r r = false := by
  unfold mustUpdateFn
  simp [stringLt, charListLt_self]

/-! ## Lemmas about the substrate model -/

theorem tableGet_tablePut_self (t : List StoredDoc) (d : StoredDoc) :
    tableGet (tablePut t d) d.doc.id = some d := by
  unfold tableGet tablePut
  rw [List.find?_cons_of_pos]
  simp

theorem tableGet_tableDelete_self (t : List StoredDoc) (id : String) :
    tableGet (tableDelete t id) id = none := by
  unfold tableGet tableDelete
  rw [List.find?_eq_none]
  intro x hx
  rw [List.mem_filter] at hx
  simpa using hx.2

theorem mapGet_mapPut_self {α : Type} (m : List (String × α)) (k : String) (v : α) :
    mapGet (mapPut m k v) k = some v := by
  unfold mapGet mapPut
  rw [List.find?_append]
  have hnone : (m.filter (fun p => p.1 ≠ k)).find? (fun p => p.1 = k) = none := by
    rw [List.find?_eq_none]
    intro x hx
    rw [List.mem_filter] at hx
    simpa using hx.2
  rw [hnone]
  simp

theorem pairwise_specTruncate {R : ChangesRow → ChangesRow → Prop}
    (limit : Option Nat) (l : List ChangesRow) (h : l.Pairwise R) :
    (specTruncate limit l).Pairwise R := by
  rcases limit with _ | k
  · exact h
  · show (if k ≠ 0 then l.take k else l).Pairwise R
    by_cases hk : k ≠ 0
    · rw [if_pos hk]
      exact h.sublist (List.take_sublist k l)
    · rw [if_neg hk]
      exact h

theorem natToString_one : natToString 1 = "1" := by
  rw [natToString, natToDigits]
  rfl

theorem getHeightOfRevision_one (s : String) :
    getHeightOfRevision ("1-" ++ s) = 1 := by
  have h : ("1-" : String) ++ s = natToString 1 ++ "-" ++ s := by
    rw [natToString_one]
    rfl
  rw [h, getHeightOfRevision_build]

/-! ## Claim C1 -/

/-- Claim C1 fails on the code: at a concrete tombstone-over-tombstone
application where the incoming revision wins (height 2 over 1, both
documents deleted), the stored tombstone payload is NOT updated in place
to the incoming document — the deleted table still holds the old payload,
which differs from the incoming one. -/
theorem claim_C1_counterexample :
    ((bulkAddRevisions exS0 [exWin] 200 "b1").1.dexieDeletedTable
      = [⟨exTombstone, some 100⟩]) ∧
    exTombstone ≠ exWin := by
  exact ⟨rfl, by decide⟩

/-- Claim C1 (amended): for every `bulkAddRevisions` application of an
incoming deleted document over a stored tombstone with a strictly greater
revision, the engine stores nothing at all (the stored tombstone is left
unchanged rather than updated in place), emits no change event, and
appends no changes-meta row; a single-document call returns the storage
state completely unchanged and an empty event bulk. -/
theorem claim_C1_amended (t : Nat) (docData : DocData) (dIn : StoredDoc)
    (acc : RevAcc)
    (hEdel : dIn.doc._deleted = true)
    (hDdel : docData._deleted = true)
    (hgt : mustUpdateFn (parseRevision docData._rev) (parseRevision dIn.doc._rev)
      = true) :
    processAddRevision t docData (some dIn) acc = acc ∧
    (∀ (s : StorageState) (bulkId : String),
      tableGet s.dexieTable docData.id = none →
      tableGet s.dexieDeletedTable docData.id = some dIn →
      bulkAddRevisions s [docData] t bulkId = (s, ⟨bulkId, []⟩)) := by
  have hstep : ∀ acc' : RevAcc, processAddRevision t docData (some dIn) acc' = acc' :=
    fun acc' => by simp [processAddRevision, hgt, hEdel, hDdel]
  refine ⟨hstep acc, fun s bulkId hl hd => ?_⟩
  simp only [bulkAddRevisions, getDocsInDb, List.map_cons, List.map_nil, hl, hd,
    List.zip_cons_cons, List.zip_nil_right, List.zip_nil_left, addRevisionsLoop,
    hstep, applyRevAcc, emptyRevAcc, tableBulkPut, tableBulkDelete,
    List.foldl_nil, addChangesRows]

/-- Claim C1 amended, witnessed at the concrete winning tombstone write. -/
theorem claim_C1_witness :
    processAddRevision 200 exWin (some exTombstoneStored) emptyRevAcc
      = emptyRevAcc ∧
    bulkAddRevisions exS0 [exWin] 200 "b1" = (exS0, ⟨"b1", []⟩) := by
  have h := claim_C1_amended 200 exWin exTombstoneStored emptyRevAcc rfl rfl
    (by decide)
  exact ⟨h.1, h.2 exS0 "b1" rfl rfl⟩

/-! ## Claim C2 -/

/-- Claim C2 fails on the code: a `bulkAddRevisions` call that produces
zero change events (a losing revision over a stored tombstone) still
publishes an `EventBulk` — with an empty event list — on the change
stream; empty bulks are not suppressed. -/
theorem claim_C2_counterexample :
    bulkAddRevisionsInstance ⟨exS0, false, true, []⟩ [exLose] 200 "b2"
      = Except.ok ⟨exS0, false, true, [⟨"b2", []⟩]⟩ := by
  rfl

/-- Claim C2 (amended): every `bulkAddRevisions` call on an open instance
publishes exactly one `EventBulk` on the change stream, regardless of how
many events were produced — in particular a call with zero events still
publishes an empty bulk. -/
theorem claim_C2_amended (inst : InstanceState) (documents : List DocData)
    (t : Nat) (bulkId : String) (hopen : inst.dbOpen = true) :
    ∃ inst', bulkAddRevisionsInstance inst documents t bulkId = Except.ok inst' ∧
      inst'.published =
        inst.published ++ [(bulkAddRevisions inst.storage documents t bulkId).2] := by
  rcases hsplit : bulkAddRevisions inst.storage documents t bulkId with ⟨s2, eb⟩
  exact ⟨{ inst with storage := s2, published := inst.published ++ [eb] },
    by simp [bulkAddRevisionsInstance, hopen, hsplit],
    by simp [hsplit]⟩

/-- Claim C2 amended, witnessed on the initial instance. -/
theorem claim_C2_witness :
    ∃ inst', bulkAddRevisionsInstance initialInstance [] 0 "w" = Except.ok inst' ∧
      inst'.published =
        initialInstance.published
          ++ [(bulkAddRevisions initialInstance.storage [] 0 "w").2] :=
  claim_C2_amended initialInstance [] 0 "w" rfl

/-! ## Claim C3 -/

/-- Claim C3: for every `bulkWrite` row that deletes an existing
non-deleted document (previous present and not deleted, previous `_rev`
matching the stored revision, incoming document deleted), the emitted
change event has operation DELETE, `doc = null`, and its `previous`
carries `_rev` rewritten to the newly generated tombstone revision (the
revision of the document placed in the deleted table). -/
theorem claim_C3 (startTime : Nat) (row : BulkWriteRow) (dIn : StoredDoc)
    (acc : WriteAcc) (p : DocData)
    (hprev : row.previous = some p)
    (hpdel : p._deleted = false)
    (hrev : p._rev = dIn.doc._rev)
    (hdocdel : row.document._deleted = true) :
    ∃ acc' ev wd,
      processWriteRow startTime row (some dIn) acc = Except.ok acc' ∧
      acc'.events = acc.events ++ [ev] ∧
      acc'.bulkPutDeletedDocs = acc.bulkPutDeletedDocs ++ [wd] ∧
      acc'.bulkRemoveDocs = acc.bulkRemoveDocs ++ [row.document.id] ∧
      ev.change.operation = ChangeOp.DELETE ∧
      ev.change.doc = none ∧
      ev.change.previous = some { p with _rev := wd.doc._rev } := by
  have hsub : substPrevious row dIn = some p := by
    simp [substPrevious, hprev]
  have hcc : conflictCond row dIn = false := by
    simp [conflictCond, hsub, hrev]
  simp only [processWriteRow, hsub, hcc, hpdel, hdocdel, Bool.false_and,
    Bool.not_false, Bool.true_and, Bool.and_true, Bool.not_true, Bool.and_false,
    if_false, if_true, Bool.false_eq_true, ite_false, ite_true]
  exact ⟨_, _, _, rfl, rfl, rfl, rfl, rfl, rfl, rfl⟩

/-- Claim C3, witnessed at a concrete delete of a stored live document. -/
theorem claim_C3_witness :
    ∃ acc' ev wd,
      processWriteRow 7 exDeleteRow (some exLiveStored) emptyWriteAcc
        = Except.ok acc' ∧
      acc'.events = emptyWriteAcc.events ++ [ev] ∧
      acc'.bulkPutDeletedDocs = emptyWriteAcc.bulkPutDeletedDocs ++ [wd] ∧
      acc'.bulkRemoveDocs = emptyWriteAcc.bulkRemoveDocs ++ ["a"] ∧
      ev.change.operation = ChangeOp.DELETE ∧
      ev.change.doc = none ∧
      ev.change.previous = some { exLiveDoc with _rev := wd.doc._rev } :=
  claim_C3 7 exDeleteRow exLiveStored emptyWriteAcc exLiveDoc rfl rfl rfl rfl

/-! ## Claim C4 -/

/-- Claim C4: every `bulkWrite` row accepted as an update of a document
already present in storage is stored (and reported in the success map)
with revision `(heightOf(stored._rev) + 1) ++ "-" ++ hash(newDoc)`; in
particular the revision height increases by exactly one over the prior
stored revision. -/
theorem claim_C4 (startTime : Nat) (row : BulkWriteRow) (dIn : StoredDoc)
    (acc acc' : WriteAcc)
    (hcc : conflictCond row dIn = false)
    (hok : processWriteRow startTime row (some dIn) acc = Except.ok acc') :
    ∃ wd : DocData,
      mapGet acc'.success row.document.id = some wd ∧
      wd._rev = natToString (getHeightOfRevision dIn.doc._rev + 1) ++ "-"
        ++ createRevision row.document ∧
      getHeightOfRevision wd._rev = getHeightOfRevision dIn.doc._rev + 1 := by
  rcases hp : substPrevious row dIn with _ | prev
  · -- impossible: a previous-less accepted write implies a stored tombstone,
    -- which the substitution would have returned
    exfalso
    have h1 : dIn.doc._deleted = true := by
      by_contra hfalse
      rw [conflictCond, hp] at hcc
      simp at hcc
      exact hfalse (by simp [hcc])
    unfold substPrevious at hp
    rcases hrowp : row.previous with _ | q
    · rw [hrowp] at hp
      simp [h1] at hp
    · rw [hrowp] at hp
      simp at hp
  · cases hpd : prev._deleted <;> cases hdd : row.document._deleted <;>
      simp only [processWriteRow, hp, hcc, hpd, hdd, Bool.false_and, Bool.true_and,
        Bool.and_false, Bool.and_true, Bool.not_false, Bool.not_true, if_false,
        if_true, Bool.false_eq_true, Bool.true_eq_false, ite_false, ite_true] at hok
    case false.false =>
      -- UPDATE branch
      injection hok with h
      subst h
      exact ⟨_, mapGet_mapPut_self _ _ _, rfl,
        by simp [stripDexieKey, getHeightOfRevision_build]⟩
    case false.true =>
      -- DELETE branch
      injection hok with h
      subst h
      exact ⟨_, mapGet_mapPut_self _ _ _, rfl,
        by simp [stripDexieKey, getHeightOfRevision_build]⟩
    case true.false =>
      -- resurrect INSERT branch
      injection hok with h
      subst h
      exact ⟨_, mapGet_mapPut_self _ _ _, rfl,
        by simp [stripDexieKey, getHeightOfRevision_build]⟩
    case true.true =>
      -- the SNH fall-through aborts the write, contradicting `hok`
      exact absurd hok (by simp)

/-- Claim C4, witnessed at a concrete accepted update. -/
theorem claim_C4_witness :
    ∃ acc', processWriteRow 7 exUpdRow (some exLiveStored) emptyWriteAcc
        = Except.ok acc' ∧
      ∃ wd : DocData,
        mapGet acc'.success exUpdRow.document.id = some wd ∧
        wd._rev = natToString (getHeightOfRevision exLiveStored.doc._rev + 1) ++ "-"
          ++ createRevision exUpdRow.document ∧
        getHeightOfRevision wd._rev = getHeightOfRevision exLiveStored.doc._rev + 1 :=
  ⟨_, rfl, claim_C4 7 exUpdRow exLiveStored emptyWriteAcc _ (by decide) rfl⟩

/-! ## Claim C5 -/

/-- Claim C5: a `bulkWrite` row whose document id is present in storage,
and which either has no previous while the stored document is not
deleted, or has a previous whose `_rev` differs from the stored `_rev`,
produces a 409 error keyed by that id in the error map; nothing else in
the accumulator changes (no storage mutation, no event, no changes-meta
id), and the loop continues with the remaining rows instead of
aborting. -/
theorem claim_C5 (startTime : Nat) (row : BulkWriteRow) (dIn : StoredDoc)
    (acc : WriteAcc)
    (h : (row.previous = none ∧ dIn.doc._deleted = false) ∨
      (∃ p, row.previous = some p ∧ p._rev ≠ dIn.doc._rev)) :
    processWriteRow startTime row (some dIn) acc =
      Except.ok { acc with
        error := mapPut acc.error row.document.id ⟨409, row.document.id, row⟩ } ∧
    mapGet (mapPut acc.error row.document.id ⟨409, row.document.id, row⟩)
      row.document.id = some ⟨409, row.document.id, row⟩ ∧
    (∀ rest, bulkWriteLoop startTime ((row, some dIn) :: rest) acc =
      bulkWriteLoop startTime rest { acc with
        error := mapPut acc.error row.document.id ⟨409, row.document.id, row⟩ }) := by
  have hcc : conflictCond row dIn = true := by
    rcases h with ⟨h1, h2⟩ | ⟨p, h1, h2⟩
    · simp [conflictCond, substPrevious, h1, h2]
    · simp [conflictCond, substPrevious, h1, Ne.symm h2]
  have heq : processWriteRow startTime row (some dIn) acc =
      Except.ok { acc with
        error := mapPut acc.error row.document.id ⟨409, row.document.id, row⟩ } := by
    simp [processWriteRow, hcc]
  refine ⟨heq, mapGet_mapPut_self _ _ _, fun rest => ?_⟩
  rw [bulkWriteLoop, heq]

/-- Claim C5, witnessed at a concrete revision mismatch. -/
theorem claim_C5_witness :
    processWriteRow 7 exConfRow (some exLiveStored) emptyWriteAcc =
      Except.ok { emptyWriteAcc with
        error := mapPut emptyWriteAcc.error "a" ⟨409, "a", exConfRow⟩ } ∧
    mapGet (mapPut emptyWriteAcc.error "a" ⟨409, "a", exConfRow⟩) "a"
      = some ⟨409, "a", exConfRow⟩ ∧
    (∀ rest, bulkWriteLoop 7 ((exConfRow, some exLiveStored) :: rest) emptyWriteAcc =
      bulkWriteLoop 7 rest { emptyWriteAcc with
        error := mapPut emptyWriteAcc.error "a" ⟨409, "a", exConfRow⟩ }) :=
  claim_C5 7 exConfRow exLiveStored emptyWriteAcc
    (Or.inr ⟨⟨"a", 9, "7-9", false⟩, rfl, by decide⟩)

/-! ## Claim C6 -/

/-- Claim C6: in `bulkAddRevisions`, an incoming document present locally
is applied exactly when its revision is strictly greater than the stored
one — first by height, then (on equal heights) by lexicographic hash
order; a non-winning document is ignored with no error and no change to
the accumulator; consequently applying the same document twice produces
one event on the first application and zero on the second. -/
theorem claim_C6 :
    (∀ a b : RevParsed, mustUpdateFn a b = true ↔
      (b.height < a.height ∨ (a.height = b.height ∧
        List.Lex (fun c d : Char => c.toNat < d.toNat) b.hash.data a.hash.data))) ∧
    (∀ (t : Nat) (docData : DocData) (dIn : StoredDoc) (acc : RevAcc),
      mustUpdateFn (parseRevision docData._rev) (parseRevision dIn.doc._rev) = false →
      processAddRevision t docData (some dIn) acc = acc) ∧
    (∀ (s : StorageState) (D : DocData) (t1 t2 : Nat) (b1 b2 : String),
      tableGet s.dexieTable D.id = none →
      tableGet s.dexieDeletedTable D.id = none →
      (bulkAddRevisions s [D] t1 b1).2.events.length = 1 ∧
      (bulkAddRevisions (bulkAddRevisions s [D] t1 b1).1 [D] t2 b2).2.events.length
        = 0) := by
  refine ⟨?_, ?_, ?_⟩
  · intro a b
    unfold mustUpdateFn
    by_cases h : a.height = b.height
    · simp [h, stringLt, charListLt_iff_lex]
    · by_cases h3 : b.height < a.height <;> simp [h, h3]
  · intro t docData dIn acc h
    simp [processAddRevision, h]
  · intro s D t1 t2 b1 b2 hl hd
    cases hDdel : D._deleted
    case false =>
      have hstate : bulkAddRevisions s [D] t1 b1 =
          (⟨tablePut s.dexieTable ⟨D, some t1⟩, s.dexieDeletedTable,
            addChangesRows s.dexieChangesTable [D.id]⟩,
           ⟨b1, [⟨getDexieEventKey false D.id D._rev, D.id,
              ⟨D.id, ChangeOp.INSERT, none, some D⟩, t1, t1⟩]⟩) := by
        simp only [bulkAddRevisions, getDocsInDb, List.map_cons, List.map_nil,
          hl, hd, List.zip_cons_cons, List.zip_nil_right, List.zip_nil_left,
          addRevisionsLoop, processAddRevision, emptyRevAcc, hDdel,
          Bool.false_eq_true, ite_false, if_false, applyRevAcc, tableBulkPut,
          tableBulkDelete, List.foldl_cons, List.foldl_nil, List.nil_append]
      refine ⟨by rw [hstate]; rfl, ?_⟩
      rw [hstate]
      have hget : tableGet (tablePut s.dexieTable ⟨D, some t1⟩) D.id
          = some ⟨D, some t1⟩ := tableGet_tablePut_self _ _
      simp [bulkAddRevisions, getDocsInDb, hget, addRevisionsLoop,
        processAddRevision, mustUpdateFn_self, emptyRevAcc]
    case true =>
      have hstate : bulkAddRevisions s [D] t1 b1 =
          (⟨s.dexieTable, tablePut s.dexieDeletedTable ⟨D, some t1⟩,
            addChangesRows s.dexieChangesTable [D.id]⟩,
           ⟨b1, [⟨getDexieEventKey false D.id D._rev, D.id,
              ⟨D.id, ChangeOp.INSERT, none, some D⟩, t1, t1⟩]⟩) := by
        simp only [bulkAddRevisions, getDocsInDb, List.map_cons, List.map_nil,
          hl, hd, List.zip_cons_cons, List.zip_nil_right, List.zip_nil_left,
          addRevisionsLoop, processAddRevision, emptyRevAcc, hDdel,
          Bool.false_eq_true, ite_true, if_true, applyRevAcc, tableBulkPut,
          tableBulkDelete, List.foldl_cons, List.foldl_nil, List.nil_append]
      refine ⟨by rw [hstate]; rfl, ?_⟩
      rw [hstate]
      have hget : tableGet (tablePut s.dexieDeletedTable ⟨D, some t1⟩) D.id
          = some ⟨D, some t1⟩ := tableGet_tablePut_self _ _
      simp [bulkAddRevisions, getDocsInDb, hl, hget, addRevisionsLoop,
        processAddRevision, mustUpdateFn_self, emptyRevAcc]

/-- Claim C6, witnessed: applying a fresh document twice yields one event,
then zero. -/
theorem claim_C6_witness :
    (bulkAddRevisions ⟨[], [], []⟩ [exFresh] 1 "p").2.events.length = 1 ∧
    (bulkAddRevisions (bulkAddRevisions ⟨[], [], []⟩ [exFresh] 1 "p").1
      [exFresh] 2 "q").2.events.length = 0 :=
  claim_C6.2.2 ⟨[], [], []⟩ exFresh 1 2 "p" "q" rfl rfl

/-! ## Claim C7 -/

/-- Claim C7: a `bulkWrite` row whose document id is stored as a tombstone
and whose previous is missing is treated as an update of the tombstone
(resurrect): it succeeds with no 409, the new revision height is the
tombstone's height plus one, the document is put into the live table and
removed from the deleted table, and the emitted event is INSERT with
`previous = null`. -/
theorem claim_C7 (startTime : Nat) (row : BulkWriteRow) (dIn : StoredDoc)
    (acc : WriteAcc)
    (hprev : row.previous = none)
    (hdel : dIn.doc._deleted = true)
    (hndd : row.document._deleted = false) :
    (∃ acc' ev wd,
      processWriteRow startTime row (some dIn) acc = Except.ok acc' ∧
      acc'.error = acc.error ∧
      wd.doc._rev = natToString (getHeightOfRevision dIn.doc._rev + 1) ++ "-"
        ++ createRevision row.document ∧
      getHeightOfRevision wd.doc._rev = getHeightOfRevision dIn.doc._rev + 1 ∧
      acc'.bulkPutDocs = acc.bulkPutDocs ++ [wd] ∧
      acc'.bulkRemoveDeletedDocs = acc.bulkRemoveDeletedDocs ++ [row.document.id] ∧
      mapGet acc'.success row.document.id = some wd.doc ∧
      acc'.events = acc.events ++ [ev] ∧
      ev.change.operation = ChangeOp.INSERT ∧
      ev.change.previous = none) ∧
    (∀ (s : StorageState) (bulkId : String),
      tableGet s.dexieTable row.document.id = none →
      tableGet s.dexieDeletedTable row.document.id = some dIn →
      ∃ s' resp bulk wd,
        bulkWrite s [row] startTime bulkId = Except.ok (s', resp, bulk) ∧
        resp.error = [] ∧
        mapGet resp.success row.document.id = some wd.doc ∧
        getHeightOfRevision wd.doc._rev = getHeightOfRevision dIn.doc._rev + 1 ∧
        tableGet s'.dexieTable row.document.id = some wd ∧
        tableGet s'.dexieDeletedTable row.document.id = none ∧
        bulk.events.length = 1 ∧
        (∀ ev ∈ bulk.events, ev.change.operation = ChangeOp.INSERT ∧
          ev.change.previous = none)) := by
  have hsub : substPrevious row dIn = some (stripDexieKey dIn) := by
    simp [substPrevious, hprev, hdel]
  have hcc : conflictCond row dIn = false := by
    simp [conflictCond, hsub, stripDexieKey]
  constructor
  · simp only [processWriteRow, hsub, hcc, hdel, hndd, stripDexieKey, Bool.true_and,
      Bool.false_and, Bool.and_true, Bool.and_false, Bool.not_true, Bool.not_false,
      if_true, if_false, Bool.false_eq_true, ite_true, ite_false]
    refine ⟨_, _, _, rfl, rfl, rfl, ?_, rfl, rfl, ?_, rfl, rfl, rfl⟩
    · simp [getHeightOfRevision_build]
    · exact mapGet_mapPut_self _ _ _
  · intro s bulkId hl hd
    simp only [bulkWrite, getDocsInDb, List.map_cons, List.map_nil, hl, hd,
      List.zip_cons_cons, List.zip_nil_right, List.zip_nil_left,
      bulkWriteLoop, processWriteRow, hsub, hcc, hdel, hndd, stripDexieKey,
      Bool.true_and, Bool.false_and, Bool.and_true, Bool.and_false,
      Bool.not_true, Bool.not_false, if_true, if_false, Bool.false_eq_true,
      ite_true, ite_false]
    refine ⟨_, _, _,
      ⟨{ row.document with
          _rev := natToString (getHeightOfRevision dIn.doc._rev + 1) ++ "-"
            ++ createRevision row.document,
          _deleted := false }, some startTime⟩, rfl, rfl, ?_, ?_, ?_, ?_, ?_, ?_⟩
    · exact mapGet_mapPut_self _ _ _
    · simp [getHeightOfRevision_build]
    · show tableGet (applyWriteAcc s _).dexieTable _ = _
      simp only [applyWriteAcc, emptyWriteAcc, List.nil_append, tableBulkPut,
        tableBulkDelete, List.foldl_cons, List.foldl_nil]
      exact tableGet_tablePut_self _ _
    · show tableGet (applyWriteAcc s _).dexieDeletedTable _ = _
      simp only [applyWriteAcc, emptyWriteAcc, List.nil_append, tableBulkPut,
        tableBulkDelete, List.foldl_cons, List.foldl_nil]
      exact tableGet_tableDelete_self _ _
    · rfl
    · intro ev hev
      simp only [emptyWriteAcc, List.nil_append, List.mem_singleton] at hev
      subst hev
      exact ⟨rfl, rfl⟩

/-- Claim C7, witnessed at a concrete previous-less write over the stored
tombstone. -/
theorem claim_C7_witness :
    ∃ s' resp bulk wd,
      bulkWrite exS0 [exResRow] 7 "bb" = Except.ok (s', resp, bulk) ∧
      resp.error = [] ∧
      mapGet resp.success exResRow.document.id = some wd.doc ∧
      getHeightOfRevision wd.doc._rev
        = getHeightOfRevision exTombstoneStored.doc._rev + 1 ∧
      tableGet s'.dexieTable exResRow.document.id = some wd ∧
      tableGet s'.dexieDeletedTable exResRow.document.id = none ∧
      bulk.events.length = 1 ∧
      (∀ ev ∈ bulk.events, ev.change.operation = ChangeOp.INSERT ∧
        ev.change.previous = none) :=
  (claim_C7 7 exResRow exTombstoneStored emptyWriteAcc rfl rfl rfl).2
    exS0 "bb" rfl rfl

/-! ## Claim C8 -/

/-- Claim C8 fails on the code in one corner: a call with a given limit of
zero is not truncated to zero entries — the JS truthiness test
`if (options.limit)` skips a zero limit, so the full result is returned. -/
theorem claim_C8_counterexample :
    (getChangedDocuments ⟨[], [], [⟨1, "a"⟩]⟩
        ⟨0, ChangeDirection.after, some 0⟩).1 = [⟨1, "a"⟩] ∧
    ¬ ((getChangedDocuments ⟨[], [], [⟨1, "a"⟩]⟩
        ⟨0, ChangeDirection.after, some 0⟩).1.length ≤ 0) := by
  exact ⟨rfl, by decide⟩

/-- Claim C8 (amended): `getChangedDocuments` returns exactly the
changes-meta entries with sequence strictly greater than `sinceSequence`
in ascending order for direction "after", and exactly those strictly
smaller in descending order for direction "before", truncated to the
limit when a nonzero limit is given (a given limit of zero is ignored);
`lastSequence` is `sinceSequence` when the result is empty, the last
element's sequence for "after", and the first element's sequence of the
returned descending list for "before". -/
theorem claim_C8_amended (s : StorageState) (o : ChangeStreamOnceOptions)
    (hsorted : s.dexieChangesTable.Pairwise (fun a b => a.sequence < b.sequence)) :
    ((getChangedDocuments s o).1 =
      specTruncate o.limit
        (match o.direction with
         | ChangeDirection.after => specChangedAfter s o.sinceSequence
         | ChangeDirection.before => specChangedBefore s o.sinceSequence)) ∧
    ((getChangedDocuments s o).1.Pairwise
      (fun a b =>
        match o.direction with
        | ChangeDirection.after => a.sequence < b.sequence
        | ChangeDirection.before => b.sequence < a.sequence)) ∧
    ((getChangedDocuments s o).1 = [] →
      (getChangedDocuments s o).2 = o.sinceSequence) ∧
    (o.direction = ChangeDirection.after →
      ∀ x, (getChangedDocuments s o).1.getLast? = some x →
        (getChangedDocuments s o).2 = x.sequence) ∧
    (o.direction = ChangeDirection.before →
      ∀ x, (getChangedDocuments s o).1.head? = some x →
        (getChangedDocuments s o).2 = x.sequence) := by
  have h2 : (getChangedDocuments s o).2 =
      (if (getChangedDocuments s o).1.isEmpty then o.sinceSequence
       else ((match o.direction with
              | ChangeDirection.after => lastOfArray (getChangedDocuments s o).1
              | ChangeDirection.before => (getChangedDocuments s o).1.head?).map
          (fun r : ChangesRow => r.sequence)).getD 0) := rfl
  have h1 : (getChangedDocuments s o).1 =
      specTruncate o.limit
        (match o.direction with
         | ChangeDirection.after => specChangedAfter s o.sinceSequence
         | ChangeDirection.before => specChangedBefore s o.sinceSequence) := by
    rcases o with ⟨since, dir, limit⟩
    cases dir <;> cases limit <;> rfl
  refine ⟨h1, ?_, ?_, ?_, ?_⟩
  · rw [h1]
    rcases o with ⟨since, dir, limit⟩
    cases dir
    · exact pairwise_specTruncate _ _
        (List.pairwise_reverse.mpr (hsorted.filter _))
    · exact pairwise_specTruncate _ _ (hsorted.filter _)
  · intro h
    rw [h2, h]
    rfl
  · intro hdir x hx
    have hne : ¬ (getChangedDocuments s o).1.isEmpty = true := by
      intro hnil
      rw [List.isEmpty_iff] at hnil
      rw [hnil] at hx
      simp at hx
    rw [h2, if_neg hne, hdir]
    simp [lastOfArray, hx]
  · intro hdir x hx
    have hne : ¬ (getChangedDocuments s o).1.isEmpty = true := by
      intro hnil
      rw [List.isEmpty_iff] at hnil
      rw [hnil] at hx
      simp at hx
    rw [h2, if_neg hne, hdir]
    simp [hx]

/-- Claim C8 amended, witnessed on a one-row changes-meta table. -/
theorem claim_C8_witness :
    ((getChangedDocuments ⟨[], [], [⟨1, "a"⟩]⟩ ⟨0, ChangeDirection.after, none⟩).1 =
      specTruncate none (specChangedAfter ⟨[], [], [⟨1, "a"⟩]⟩ 0)) ∧
    ((getChangedDocuments ⟨[], [], [⟨1, "a"⟩]⟩
        ⟨0, ChangeDirection.after, none⟩).1.Pairwise
      (fun a b : ChangesRow => a.sequence < b.sequence)) ∧
    ((getChangedDocuments ⟨[], [], [⟨1, "a"⟩]⟩
        ⟨0, ChangeDirection.after, none⟩).1 = [] →
      (getChangedDocuments ⟨[], [], [⟨1, "a"⟩]⟩
        ⟨0, ChangeDirection.after, none⟩).2 = 0) ∧
    (∀ x, (getChangedDocuments ⟨[], [], [⟨1, "a"⟩]⟩
        ⟨0, ChangeDirection.after, none⟩).1.getLast? = some x →
      (getChangedDocuments ⟨[], [], [⟨1, "a"⟩]⟩
        ⟨0, ChangeDirection.after, none⟩).2 = x.sequence) := by
  have h := claim_C8_amended ⟨[], [], [⟨1, "a"⟩]⟩ ⟨0, ChangeDirection.after, none⟩
    (by simp)
  exact ⟨h.1, h.2.1, h.2.2.1, h.2.2.2.1 rfl⟩

/-! ## Claim C9 -/

/-- Claim C9: after `close()` has completed (the closed flag is set and
the substrate handle released), every public read or write operation —
`bulkWrite`, `bulkAddRevisions`, `findDocumentsById`, `query`,
`getChangedDocuments` — fails with the closed-instance error instead of
succeeding. -/
theorem claim_C9 (inst : InstanceState) (rows : List BulkWriteRow)
    (docs : List DocData) (ids : List String) (del : Bool)
    (qm : StoredDoc → Bool) (sl : DocData → DocData → Bool)
    (pq : PreparedQuery) (o : ChangeStreamOnceOptions) (t : Nat) (b : String) :
    bulkWriteInstance (closeInstance inst) rows t b = Except.error RxErr.closed ∧
    bulkAddRevisionsInstance (closeInstance inst) docs t b
      = Except.error RxErr.closed ∧
    findDocumentsByIdInstance (closeInstance inst) ids del
      = Except.error RxErr.closed ∧
    queryInstance (closeInstance inst) qm sl pq = Except.error RxErr.closed ∧
    getChangedDocumentsInstance (closeInstance inst) o
      = Except.error RxErr.closed := by
  refine ⟨?_, ?_, ?_, ?_, ?_⟩ <;>
    simp [bulkWriteInstance, bulkAddRevisionsInstance, findDocumentsByIdInstance,
      queryInstance, getChangedDocumentsInstance, closeInstance]

/-! ## Claim C10 -/

/-- Claim C10: when a single `bulkWrite` batch holds two rows with the
same id and that id is absent from storage, both rows are categorized
against the snapshot read at the start of the transaction: both become
fresh inserts at revision height 1 with no 409, the success map reports
the id with the later row's document (the later write overwrites the
earlier entry), and one INSERT event (with `previous = null`) is emitted
per non-deleted row. -/
theorem claim_C10 (s : StorageState) (r1 r2 : BulkWriteRow)
    (startTime : Nat) (bulkId : String)
    (hid : r2.document.id = r1.document.id)
    (hl : tableGet s.dexieTable r1.document.id = none)
    (hd : tableGet s.dexieDeletedTable r1.document.id = none) :
    ∃ s' resp bulk,
      bulkWrite s [r1, r2] startTime bulkId = Except.ok (s', resp, bulk) ∧
      resp.error = [] ∧
      resp.success = [(r1.document.id,
        { r2.document with
            _rev := "1-" ++ createRevision r2.document,
            _deleted := r2.document._deleted })] ∧
      getHeightOfRevision ("1-" ++ createRevision r2.document) = 1 ∧
      bulk.events.length =
        ((if r1.document._deleted then 0 else 1)
          + (if r2.document._deleted then 0 else 1)) ∧
      (∀ ev ∈ bulk.events, ev.change.operation = ChangeOp.INSERT ∧
        ev.change.previous = none ∧
        ∃ d, ev.change.doc = some d ∧ getHeightOfRevision d._rev = 1) := by
  cases hd1 : r1.document._deleted <;> cases hd2 : r2.document._deleted <;>
    simp only [bulkWrite, getDocsInDb, List.map_cons, List.map_nil, hid, hl, hd,
      List.zip_cons_cons, List.zip_nil_right, List.zip_nil_left,
      bulkWriteLoop, processWriteRow, hd1, hd2, Bool.false_eq_true, ite_false,
      ite_true, if_true, if_false, emptyWriteAcc, List.nil_append,
      List.append_nil] <;>
    refine ⟨_, _, _, rfl, rfl, ?_, getHeightOfRevision_one _, rfl, ?_⟩ <;>
    simp only [mapPut, List.filter_nil, List.nil_append, List.filter_cons,
      List.cons_append, hid, decide_not, ne_eq, not_true_eq_false,
      Bool.not_true, Bool.false_eq_true, ite_false, if_false,
      decide_eq_true_eq, decide_True, decide_False] <;>
    (intro ev hev
     simp only [List.mem_cons, List.mem_singleton, List.not_mem_nil,
       or_false] at hev <;>
     rcases hev with h | h <;>
       (try subst h) <;>
       exact ⟨rfl, rfl, _, rfl, getHeightOfRevision_one _⟩)

/-- Claim C10, witnessed at two same-id rows over empty storage. -/
theorem claim_C10_witness :
    ∃ s' resp bulk,
      bulkWrite ⟨[], [], []⟩
        [⟨⟨"x", 1, "", false⟩, none⟩, ⟨⟨"x", 2, "", false⟩, none⟩] 5 "bb"
        = Except.ok (s', resp, bulk) ∧
      resp.error = [] ∧
      resp.success = [("x",
        { (⟨"x", 2, "", false⟩ : DocData) with
            _rev := "1-" ++ createRevision ⟨"x", 2, "", false⟩,
            _deleted := false })] ∧
      getHeightOfRevision ("1-" ++ createRevision ⟨"x", 2, "", false⟩) = 1 ∧
      bulk.events.length = 2 ∧
      (∀ ev ∈ bulk.events, ev.change.operation = ChangeOp.INSERT ∧
        ev.change.previous = none ∧
        ∃ d, ev.change.doc = some d ∧ getHeightOfRevision d._rev = 1) :=
  claim_C10 ⟨[], [], []⟩ ⟨⟨"x", 1, "", false⟩, none⟩ ⟨⟨"x", 2, "", false⟩, none⟩
    5 "bb" rfl rfl rfl

end RxDexie
